import Mathlib

/-!
Verification of the access-gated key-intake state machine of the bot
(source: src/unnamed/part_001, first document, version 3.3, together with
the SQL schemas in src/schema.sql and src/unnamed/part_003).

The database tables are embedded as Lean lists of rows; each bot handler
becomes a Lean function from state to state (plus a reply value), written
to mirror the SQL statements and control flow of the TypeScript source.
Timestamps are modelled as natural numbers of milliseconds (JS Date.getTime).
-/

namespace Bot

/-- JS number as produced by `parseFloat`: NaN, signed infinity, or a finite
value.  Finite values are modelled as exact rationals; rounding of decimal
literals to IEEE doubles is not modelled (it never changes the sign tests
the bot performs, except for the untriggered sub-denormal underflow corner). -/
inductive JsNum where
  | nan : JsNum
  | inf (pos : Bool) : JsNum
  | fin (q : ℚ) : JsNum
deriving DecidableEq, Repr

/-- JS `isNaN(x)`. -/
def jsIsNaN : JsNum → Bool
  | .nan => true
  | _ => false

/-- The JS comparison `x <= 0` (false on NaN, as in JS). -/
def jsLeZero : JsNum → Bool
  | .nan => false
  | .inf pos => !pos
  | .fin q => decide (q ≤ 0)

/-- PostgreSQL numeric rounding: half away from zero. -/
def roundHalfAwayFromZero (q : ℚ) : ℤ :=
  if 0 ≤ q then ⌊q + 1 / 2⌋ else -⌊-q + 1 / 2⌋

/-- Conversion of a JS number into the `DECIMAL(10,2)` column
`conversion_price` (part_003 line 66): a finite value is rounded half away
from zero to two decimal places and must fit in 8 integer digits; `none`
when PostgreSQL rejects the value (non-finite, or numeric field overflow),
in which case the UPDATE raises and the column is left unchanged. -/
def decimal10_2 (v : JsNum) : Option ℚ :=
  match v with
  | .fin q =>
    let r : ℚ := (roundHalfAwayFromZero (q * 100) : ℚ) / 100
    if |r| < 10 ^ 8 then some r else none
  | _ => none

/-- JS whitespace as skipped by `parseFloat`: the WhiteSpace production
(space, tab, VT, FF, NBSP, BOM and the Unicode space separators) and the
LineTerminator production (LF, CR, LS, PS). -/
def jsWhitespace (c : Char) : Bool :=
  [' ', '\t', '\x0b', '\x0c', '\n', '\r', '\u00A0', '\uFEFF', '\u1680',
   '\u2000', '\u2001', '\u2002', '\u2003', '\u2004', '\u2005', '\u2006',
   '\u2007', '\u2008', '\u2009', '\u200A', '\u2028', '\u2029', '\u202F',
   '\u205F', '\u3000'].contains c

/-- Leading-whitespace skipping of `parseFloat`. -/
def skipWs : List Char → List Char
  | [] => []
  | c :: r => if jsWhitespace c then skipWs r else c :: r

/-- Optional sign; returns (isNegative, rest). -/
def readSign : List Char → Bool × List Char
  | '-' :: r => (true, r)
  | '+' :: r => (false, r)
  | l => (false, l)

/-- Longest digit prefix; returns (digits, rest). -/
def takeDigits : List Char → List Char × List Char
  | [] => ([], [])
  | c :: r =>
    if c.isDigit then
      let (d, rest) := takeDigits r
      (c :: d, rest)
    else ([], c :: r)

/-- Value of a digit string. -/
def natOfDigits (l : List Char) : ℕ :=
  l.foldl (fun n c => 10 * n + (c.toNat - 48)) 0

/-- Value `10 ^ e` over ℚ for an integer exponent. -/
def pow10 : ℤ → ℚ
  | .ofNat n => (10 : ℚ) ^ n
  | .negSucc n => 1 / (10 : ℚ) ^ (n + 1)

/-- Optional exponent part `[eE][+-]?digits`; a malformed exponent is ignored
(as `parseFloat` backtracks). -/
def parseExp (l : List Char) : ℤ :=
  match l with
  | c :: r =>
    if c == 'e' || c == 'E' then
      let (neg, r1) := readSign r
      let (ds, _) := takeDigits r1
      if ds.isEmpty then 0
      else if neg then -(natOfDigits ds : ℤ) else (natOfDigits ds : ℤ)
    else 0
  | [] => 0

/-- JS `parseFloat`: skip whitespace, optional sign, literal `Infinity`, or the
longest decimal-literal prefix `digits [. digits] [exponent]`; NaN when no
digits are found. -/
def parseFloat (s : String) : JsNum :=
  let l := skipWs s.data
  let (neg, l1) := readSign l
  if "Infinity".data.isPrefixOf l1 then .inf (!neg)
  else
    let (ip, l2) := takeDigits l1
    let (fp, l3) :=
      match l2 with
      | '.' :: r => takeDigits r
      | _ => ([], l2)
    if ip.isEmpty && fp.isEmpty then .nan
    else
      let mant : ℚ := (natOfDigits ip : ℚ) + (natOfDigits fp : ℚ) / (10 : ℚ) ^ fp.length
      let v : ℚ := mant * pow10 (parseExp l3)
      .fin (if neg then -v else v)

/-- Character class of the key regex `[a-zA-Z0-9._-]`. -/
def allowedKeyChar (c : Char) : Bool :=
  c.isAlpha || c.isDigit || c == '.' || c == '_' || c == '-'

/-- Length of the longest run of allowed characters (`cur` = current run,
`best` = best so far). -/
def longestRunAux : List Char → ℕ → ℕ → ℕ
  | [], cur, best => max cur best
  | c :: r, cur, best =>
    if allowedKeyChar c then longestRunAux r (cur + 1) best
    else longestRunAux r 0 (max cur best)

/-- Regex test `/[a-zA-Z0-9._-]{25,}/.test(text)`: some run of at least 25 allowed
characters occurs in the text. -/
def hasKeyRun (t : String) : Bool :=
  25 ≤ longestRunAux t.data 0 0

/-- The api_key-step shape check of the source:
`text.length > 25 && /[a-zA-Z0-9._-]{25,}/.test(text)`. -/
def keyShaped (t : String) : Bool :=
  t.length > 25 && hasKeyRun t

/-- One millisecond-count day, `1000 * 3600 * 24` of the source. -/
def dayMs : ℕ := 86400000

/-- The five funnel steps stored in `user_funnel.current_step`
(`vertical, geo, source, price, api_key`; spec names
Category, Geography, Source, Price, Key). -/
inductive Step where
  | vertical : Step
  | geo : Step
  | source : Step
  | price : Step
  | api_key : Step
deriving DecidableEq, Repr

/-- Position of a step in the fixed sequence. -/
def stepIdx : Step → ℕ
  | .vertical => 0
  | .geo => 1
  | .source => 2
  | .price => 3
  | .api_key => 4

/-- A row of the `user_access` table (part_003 schema). -/
structure AccessRow where
  chatId : ℕ
  grantedAt : ℕ
  expiresAt : ℕ
  isActive : Bool
  createdByAdminId : Option ℕ
  notes : Option String
deriving DecidableEq, Repr

/-- A row of the `user_funnel` table (part_003 schema).
`conversionPrice` holds the `DECIMAL(10,2)` column value (a rational with
at most two decimal places, written only through `decimal10_2`). -/
structure FunnelRow where
  chatId : ℕ
  vertical : Option String
  geo : Option String
  source : Option String
  conversionPrice : Option ℚ
  apiKey : Option String
  currentStep : Step
  isCompleted : Bool
deriving DecidableEq, Repr

/-- A row of the customer `api_keys` table (src/schema.sql).  The TEXT column
`account_name` holds the formatted snapshot
`Vertical: .., GEO: .., Price: ..`; it is modelled as the underlying triple. -/
structure ApiKeyRow where
  chatId : ℕ
  apiKey : String
  platform : Option String
  accountVertical : Option String
  accountGeo : Option String
  accountPrice : Option ℚ
  createdAt : ℕ
deriving DecidableEq, Repr

/-- A row of the `user_cache` table (only the column the verified handlers
touch). -/
structure CacheRow where
  chatId : ℕ
  totalKeysSent : ℕ
deriving DecidableEq, Repr

/-- The database state: the two databases' tables used by the handlers. -/
structure St where
  userAccess : List AccessRow
  userFunnel : List FunnelRow
  apiKeys : List ApiKeyRow
  userCache : List CacheRow
deriving DecidableEq, Repr

/-- Query `SELECT * FROM user_funnel WHERE chat_id = $1 AND is_completed = false`
followed by taking `rows[0]`. -/
def findIncomplete (s : St) (u : ℕ) : Option FunnelRow :=
  s.userFunnel.find? (fun r => r.chatId == u && !r.isCompleted)

/-- Number of incomplete funnel rows a user holds. -/
def countIncomplete (s : St) (u : ℕ) : ℕ :=
  (s.userFunnel.filter (fun r => r.chatId == u && !r.isCompleted)).length

/-- The fresh row inserted by
`INSERT INTO user_funnel (chat_id, current_step) VALUES ($1, 'vertical')`
(all other columns take their schema defaults). -/
def newFunnel (u : ℕ) : FunnelRow :=
  { chatId := u, vertical := none, geo := none, source := none,
    conversionPrice := none, apiKey := none,
    currentStep := .vertical, isCompleted := false }

/-- Function `getOrCreateUserFunnel` of part_001: return the existing incomplete
funnel unchanged, or insert a new one at step `vertical`. -/
def getOrCreateUserFunnel (s : St) (u : ℕ) : FunnelRow × St :=
  match findIncomplete s u with
  | some r => (r, s)
  | none => (newFunnel u, { s with userFunnel := s.userFunnel ++ [newFunnel u] })

/-- Statement `UPDATE user_funnel SET .. WHERE chat_id = $2 AND is_completed = false`:
apply `g` to every incomplete row of user `u`. -/
def updFunnel (s : St) (u : ℕ) (g : FunnelRow → FunnelRow) : St :=
  { s with userFunnel :=
      s.userFunnel.map (fun r => if r.chatId == u && !r.isCompleted then g r else r) }

/-- Function `updateFunnelStep(chatId, step)` of part_001. -/
def updateFunnelStep (s : St) (u : ℕ) (st : Step) : St :=
  updFunnel s u (fun r => { r with currentStep := st })

/-- Call `updateFunnelField(chatId, 'vertical', v)` of part_001. -/
def updateFunnelVertical (s : St) (u : ℕ) (v : String) : St :=
  updFunnel s u (fun r => { r with vertical := some v })

/-- Call `updateFunnelField(chatId, 'geo', v)` of part_001. -/
def updateFunnelGeo (s : St) (u : ℕ) (v : String) : St :=
  updFunnel s u (fun r => { r with geo := some v })

/-- Call `updateFunnelField(chatId, 'source', v)` of part_001. -/
def updateFunnelSource (s : St) (u : ℕ) (v : String) : St :=
  updFunnel s u (fun r => { r with source := some v })

/-- Call `updateFunnelField(chatId, 'conversion_price', v)` of part_001.
When the JS number does not fit the `DECIMAL(10,2)` column (Infinity, or
numeric overflow) the UPDATE raises; `updateFunnelField` catches and only
logs the error (part_001 lines 290-292), so the state is unchanged. -/
def updateFunnelPrice (s : St) (u : ℕ) (v : JsNum) : St :=
  match decimal10_2 v with
  | some q => updFunnel s u (fun r => { r with conversionPrice := some q })
  | none => s

/-- Call `updateFunnelField(chatId, 'api_key', v)` of part_001. -/
def updateFunnelApiKey (s : St) (u : ℕ) (v : String) : St :=
  updFunnel s u (fun r => { r with apiKey := some v })

/-- Function `completeFunnel(chatId)` of part_001:
`UPDATE user_funnel SET is_completed = true WHERE chat_id AND NOT is_completed`. -/
def completeFunnel (s : St) (u : ℕ) : St :=
  updFunnel s u (fun r => { r with isCompleted := true })

/-- Statement `UPDATE user_cache SET total_keys_sent = COALESCE(total_keys_sent,0)+1
WHERE chat_id = $1` (updates nothing when no cache row exists). -/
def bumpKeyCounter (s : St) (u : ℕ) : St :=
  { s with userCache :=
      s.userCache.map (fun r => if r.chatId == u then { r with totalKeysSent := r.totalKeysSent + 1 } else r) }

/-- User-visible outcome of a text message inside the funnel. -/
inductive Reply where
  | askSource : Reply
  | askKey : Reply
  | invalidPrice : Reply
  | notKeyLike : Reply
  | savedOk : Reply
  | duplicate (since : ℕ) : Reply
  | fallthrough : Reply
deriving DecidableEq, Repr

/-- The funnel section of `bot.on('text')` in part_001 (lines 1455-1622):
geo, price and api_key step processing for a user with an active funnel.
`now` is the current time, used as `created_at` of a fresh key row
(`DEFAULT NOW()` in src/schema.sql). -/
def handleText (s : St) (u : ℕ) (text : String) (now : ℕ) : St × Reply :=
  match findIncomplete s u with
  | none => (s, .fallthrough)
  | some f =>
    if f.currentStep = .geo then
      (updateFunnelStep (updateFunnelGeo s u text) u .source, .askSource)
    else if f.currentStep = .price then
      let price := parseFloat text
      if jsIsNaN price || jsLeZero price then (s, .invalidPrice)
      else (updateFunnelStep (updateFunnelPrice s u price) u .api_key, .askKey)
    else if f.currentStep = .api_key then
      if keyShaped text then
        match s.apiKeys.find? (fun r => r.chatId == u && r.apiKey == text) with
        | some row => (completeFunnel s u, .duplicate row.createdAt)
        | none =>
          let inserted : ApiKeyRow :=
            { chatId := u, apiKey := text, platform := f.source,
              accountVertical := f.vertical, accountGeo := f.geo,
              accountPrice := f.conversionPrice, createdAt := now }
          let s1 := { s with apiKeys := s.apiKeys ++ [inserted] }
          let s2 := bumpKeyCounter s1 u
          let s3 := updateFunnelApiKey s2 u text
          (completeFunnel s3 u, .savedOk)
      else (s, .notKeyLike)
    else (s, .fallthrough)

/-- Function `handleVerticalSelection(ctx, vertical)` of part_001 (lines 971-994):
unconditionally writes the vertical and sets the step to `geo`. -/
def handleVerticalSelection (s : St) (u : ℕ) (v : String) : St :=
  updateFunnelStep (updateFunnelVertical s u v) u .geo

/-- The funnel branch of the platform-button handler (part_001 lines
997-1095): only acts when the active funnel is at step `source`. -/
def handleSourceSelection (s : St) (u : ℕ) (platform : String) : St :=
  match findIncomplete s u with
  | some f =>
    if f.currentStep = .source then
      updateFunnelStep (updateFunnelSource s u platform) u .price
    else s
  | none => s

/-- Handler of the back button of part_001 (lines 1098-1182): one step back
from `source`, `price` or `api_key`; any other case falls through to the
main menu without touching the funnel table. -/
def handleBack (s : St) (u : ℕ) : St :=
  match findIncomplete s u with
  | some f =>
    if f.currentStep = .source then updateFunnelStep s u .geo
    else if f.currentStep = .price then updateFunnelStep s u .source
    else if f.currentStep = .api_key then updateFunnelStep s u .price
    else s
  | none => s

/-- One inbound user interaction that can touch the funnel table. -/
inductive Event where
  | beginFunnel : Event
  | verticalSelect (v : String) : Event
  | sourceSelect (platform : String) : Event
  | goBack : Event
  | textInput (t : String) (now : ℕ) : Event

/-- Dispatch of an interaction to its part_001 handler. -/
def handleEvent (s : St) (u : ℕ) : Event → St
  | .beginFunnel => (getOrCreateUserFunnel s u).2
  | .verticalSelect v => handleVerticalSelection s u v
  | .sourceSelect p => handleSourceSelection s u p
  | .goBack => handleBack s u
  | .textInput t now => (handleText s u t now).1

/-- Result record of `checkUserAccess` in part_001. -/
structure AccessCheck where
  hasAccess : Bool
  daysLeft : ℕ
  expiresAt : Option ℕ
  isActive : Bool
deriving DecidableEq, Repr

/-- Expression `Math.max(0, Math.ceil((expiresAt - now) / (1000*3600*24)))`. -/
def daysLeftCalc (expiresAt now : ℕ) : ℕ :=
  (expiresAt - now + dayMs - 1) / dayMs

/-- Function `checkUserAccess(chatId)` of part_001 (lines 115-167).  The access table
is passed as `Option`: `none` is the catch branch taken when the backing
store is unreachable, `some rows` a successful query. -/
def checkUserAccess (adminIds : List ℕ) (u : ℕ) (table : Option (List AccessRow))
    (now : ℕ) : AccessCheck :=
  if u ∈ adminIds then
    { hasAccess := true, daysLeft := 999, expiresAt := none, isActive := true }
  else
    match table with
    | none => { hasAccess := false, daysLeft := 0, expiresAt := none, isActive := false }
    | some rows =>
      match rows.find? (fun r => r.chatId == u && r.isActive && now < r.expiresAt) with
      | none => { hasAccess := false, daysLeft := 0, expiresAt := none, isActive := false }
      | some r =>
        { hasAccess := true, daysLeft := daysLeftCalc r.expiresAt now,
          expiresAt := some r.expiresAt, isActive := r.isActive }

/-- The stored procedure `add_user_access` of part_003 (lines 154-189):
upsert on `chat_id`, setting `expires_at = NOW() + days`, `is_active = true`,
and resetting `granted_at` only when the old grant had already expired.
The bot's add/extend branches (part_001 lines 1282-1286 and 1343-1356)
perform the same insert-or-update with `days = 30`.
`grantRow` is the `DO UPDATE SET` row transformation. -/
def grantRow (r : AccessRow) (admin days : ℕ) (notes : Option String)
    (now : ℕ) : AccessRow :=
  { r with
    expiresAt := now + days * dayMs
    isActive := true
    createdByAdminId := some admin
    notes := match notes with | some n => some n | none => r.notes
    grantedAt := if r.expiresAt < now then now else r.grantedAt }

/-- The row inserted by `add_user_access` for a user with no prior grant. -/
def newAccessRow (u admin days : ℕ) (notes : Option String) (now : ℕ) : AccessRow :=
  { chatId := u, grantedAt := now, expiresAt := now + days * dayMs,
    isActive := true, createdByAdminId := some admin, notes := notes }

/-- Statement `INSERT INTO user_access .. ON CONFLICT (chat_id) DO UPDATE SET ..`
of the `add_user_access` procedure: update the existing grant of `u`
(the schema keeps `chat_id` UNIQUE), otherwise insert a fresh row. -/
def add_user_access (s : St) (u admin : ℕ) (days : ℕ) (notes : Option String)
    (now : ℕ) : St :=
  if s.userAccess.any (fun r => r.chatId == u) then
    { s with userAccess := s.userAccess.map (fun r =>
        if r.chatId == u then grantRow r admin days notes now else r) }
  else
    { s with userAccess := s.userAccess ++ [newAccessRow u admin days notes now] }

/-- Unique-constraint column sets of the customer `api_keys` table as declared
in src/schema.sql: only the SERIAL primary key `id`; the index
`idx_api_keys_chat_id` is not unique. -/
def apiKeysUniqueColumnSets : List (List String) := [["id"]]

/-- The SELECT phase of the api_key-step duplicate check, taken on its own
(the handler is not a single atomic statement). -/
def keyCheckPhase (s : St) (u : ℕ) (k : String) : Bool :=
  (s.apiKeys.find? (fun r => r.chatId == u && r.apiKey == k)).isSome

/-- The INSERT phase of the api_key-step save: the storage layer accepts the
row unconditionally, since src/schema.sql declares no unique constraint over
(chat_id, api_key). -/
def keyInsertPhase (s : St) (u : ℕ) (k : String) (platform : Option String)
    (now : ℕ) : St :=
  { s with apiKeys := s.apiKeys ++
      [{ chatId := u, apiKey := k, platform := platform,
         accountVertical := none, accountGeo := none, accountPrice := none,
         createdAt := now }] }

/-- Number of stored-key rows for a (user, key text) pair. -/
def countKeyRows (s : St) (u : ℕ) (k : String) : ℕ :=
  (s.apiKeys.filter (fun r => r.chatId == u && r.apiKey == k)).length

/-- Iterate `n` consecutive `beginFunnel` (`getOrCreateUserFunnel`) calls by one user. -/
def beginIter (s : St) (u : ℕ) : ℕ → St
  | 0 => s
  | n + 1 => beginIter (getOrCreateUserFunnel s u).2 u n

/-- Whether a parsed JS value is finite (the spec's "finite number"). -/
def jsIsFinite : JsNum → Bool
  | .fin _ => true
  | _ => false

/-- Example key text (the spec's scenario 2 key; 27 characters, all in the
allowed class). -/
def exKey : String := "abc123XYZ_-.longenoughkey00"

/-- An incomplete funnel of user 1 waiting at the api_key step. -/
def exFunnelApiKey : FunnelRow :=
  { chatId := 1, vertical := some "Finance / MFO", geo := some "DE",
    source := some "Google", conversionPrice := none, apiKey := none,
    currentStep := .api_key, isCompleted := false }

/-- An incomplete funnel of user 1 waiting at the price step. -/
def exFunnelPrice : FunnelRow :=
  { exFunnelApiKey with currentStep := .price, source := some "Google" }

/-- An incomplete funnel of user 1 waiting at the vertical step. -/
def exFunnelVertical : FunnelRow := newFunnel 1

/-- An incomplete funnel of user 1 waiting at the source step. -/
def exFunnelSource : FunnelRow :=
  { exFunnelApiKey with currentStep := .source, source := none }

/-- State: user 1 at the api_key step, empty key store, one cache row. -/
def exStApiKey : St :=
  { userAccess := [], userFunnel := [exFunnelApiKey], apiKeys := [],
    userCache := [{ chatId := 1, totalKeysSent := 0 }] }

/-- State: user 1 at the price step. -/
def exStPrice : St :=
  { userAccess := [], userFunnel := [exFunnelPrice], apiKeys := [], userCache := [] }

/-- State: user 1 at the vertical (initial) step. -/
def exStVertical : St :=
  { userAccess := [], userFunnel := [exFunnelVertical], apiKeys := [], userCache := [] }

/-- State: user 1 at the source step. -/
def exStSource : St :=
  { userAccess := [], userFunnel := [exFunnelSource], apiKeys := [], userCache := [] }

/-- The empty database state. -/
def exStEmpty : St :=
  { userAccess := [], userFunnel := [], apiKeys := [], userCache := [] }

/-- A stored-key row of user 1 for `exKey`, saved at time 5. -/
def exRow : ApiKeyRow :=
  { chatId := 1, apiKey := exKey, platform := some "Google",
    accountVertical := some "Finance / MFO", accountGeo := some "DE",
    accountPrice := none, createdAt := 5 }

/-- State: user 1 at the api_key step with `exKey` already stored. -/
def exStDup : St :=
  { userAccess := [], userFunnel := [exFunnelApiKey], apiKeys := [exRow],
    userCache := [{ chatId := 1, totalKeysSent := 1 }] }

/-- State after user 1 submits `exKey` at time 5 from `exStApiKey`. -/
def exSt1 : St := (handleText exStApiKey 1 exKey 5).1

/-- State `exSt1` with a second incomplete funnel of user 1 re-opened at the
api_key step (the key store untouched in between). -/
def exSt2 : St := { exSt1 with userFunnel := exSt1.userFunnel ++ [exFunnelApiKey] }

/-!  ## Generic list lemmas about conditional-update maps
(`UPDATE .. WHERE ..` is `List.map (fun a => if p a then g a else a)`). -/

theorem find?_condMap_of_preserve {α : Type} (p : α → Bool) (g : α → α)
    (hg : ∀ a, p a = true → p (g a) = true) :
    ∀ l : List α,
      (l.map (fun a => if p a then g a else a)).find? p = (l.find? p).map g
  | [] => rfl
  | a :: l => by
    cases hpa : p a with
    | false =>
      have h1 : (if p a then g a else a) = a := by simp [hpa]
      rw [List.map_cons, h1, List.find?_cons_of_neg _ (by simp [hpa]),
        List.find?_cons_of_neg _ (by simp [hpa]),
        find?_condMap_of_preserve p g hg l]
    | true =>
      have h1 : (if p a then g a else a) = g a := by simp [hpa]
      rw [List.map_cons, h1, List.find?_cons_of_pos _ (hg a hpa),
        List.find?_cons_of_pos _ hpa, Option.map_some']

theorem find?_condMap_of_kill {α : Type} (p : α → Bool) (g : α → α)
    (hg : ∀ a, p a = true → p (g a) = false) :
    ∀ l : List α,
      (l.map (fun a => if p a then g a else a)).find? p = none
  | [] => rfl
  | a :: l => by
    cases hpa : p a with
    | false =>
      have h1 : (if p a then g a else a) = a := by simp [hpa]
      rw [List.map_cons, h1, List.find?_cons_of_neg _ (by simp [hpa]),
        find?_condMap_of_kill p g hg l]
    | true =>
      have h1 : (if p a then g a else a) = g a := by simp [hpa]
      rw [List.map_cons, h1, List.find?_cons_of_neg _ (by simp [hg a hpa]),
        find?_condMap_of_kill p g hg l]

theorem length_filter_condMap {α : Type} (p : α → Bool) (g : α → α)
    (hg : ∀ a, p (g a) = p a) :
    ∀ l : List α,
      ((l.map (fun a => if p a then g a else a)).filter p).length = (l.filter p).length
  | [] => rfl
  | a :: l => by
    cases hpa : p a with
    | false =>
      have h1 : (if p a then g a else a) = a := by simp [hpa]
      rw [List.map_cons, h1, List.filter_cons, List.filter_cons, hpa]
      simpa using length_filter_condMap p g hg l
    | true =>
      have h1 : (if p a then g a else a) = g a := by simp [hpa]
      rw [List.map_cons, h1, List.filter_cons, List.filter_cons, hpa, hg a, hpa]
      simpa using length_filter_condMap p g hg l

theorem filter_nil_find? {α : Type} (p : α → Bool) (l : List α)
    (h : l.filter p = []) : l.find? p = none :=
  List.find?_eq_none.mpr (List.filter_eq_nil_iff.mp h)

/-! ## Frame and lookup lemmas for the state updaters -/

theorem updFunnel_apiKeys (s : St) (u : ℕ) (g : FunnelRow → FunnelRow) :
    (updFunnel s u g).apiKeys = s.apiKeys := rfl

theorem updFunnel_userCache (s : St) (u : ℕ) (g : FunnelRow → FunnelRow) :
    (updFunnel s u g).userCache = s.userCache := rfl

theorem updFunnel_userAccess (s : St) (u : ℕ) (g : FunnelRow → FunnelRow) :
    (updFunnel s u g).userAccess = s.userAccess := rfl

theorem findIncomplete_updFunnel (s : St) (u : ℕ) (g : FunnelRow → FunnelRow)
    (hg1 : ∀ r, (g r).chatId = r.chatId)
    (hg2 : ∀ r, (g r).isCompleted = r.isCompleted) :
    findIncomplete (updFunnel s u g) u = (findIncomplete s u).map g := by
  unfold findIncomplete updFunnel
  exact find?_condMap_of_preserve _ g
    (fun r hr => by rw [hg1, hg2]; exact hr) s.userFunnel

theorem findIncomplete_updateFunnelStep (s : St) (u : ℕ) (st : Step) :
    findIncomplete (updateFunnelStep s u st) u
      = (findIncomplete s u).map (fun r => { r with currentStep := st }) :=
  findIncomplete_updFunnel s u _ (fun _ => rfl) (fun _ => rfl)

theorem findIncomplete_updateFunnelVertical (s : St) (u : ℕ) (v : String) :
    findIncomplete (updateFunnelVertical s u v) u
      = (findIncomplete s u).map (fun r => { r with vertical := some v }) :=
  findIncomplete_updFunnel s u _ (fun _ => rfl) (fun _ => rfl)

theorem findIncomplete_updateFunnelGeo (s : St) (u : ℕ) (v : String) :
    findIncomplete (updateFunnelGeo s u v) u
      = (findIncomplete s u).map (fun r => { r with geo := some v }) :=
  findIncomplete_updFunnel s u _ (fun _ => rfl) (fun _ => rfl)

theorem findIncomplete_updateFunnelSource (s : St) (u : ℕ) (v : String) :
    findIncomplete (updateFunnelSource s u v) u
      = (findIncomplete s u).map (fun r => { r with source := some v }) :=
  findIncomplete_updFunnel s u _ (fun _ => rfl) (fun _ => rfl)

theorem findIncomplete_updateFunnelPrice_ok (s : St) (u : ℕ) (v : JsNum)
    (q : ℚ) (h : decimal10_2 v = some q) :
    findIncomplete (updateFunnelPrice s u v) u
      = (findIncomplete s u).map (fun r => { r with conversionPrice := some q }) := by
  unfold updateFunnelPrice
  rw [h]
  exact findIncomplete_updFunnel s u _ (fun _ => rfl) (fun _ => rfl)

theorem updateFunnelPrice_err (s : St) (u : ℕ) (v : JsNum)
    (h : decimal10_2 v = none) : updateFunnelPrice s u v = s := by
  unfold updateFunnelPrice
  rw [h]

theorem findIncomplete_completeFunnel (s : St) (u : ℕ) :
    findIncomplete (completeFunnel s u) u = none := by
  unfold findIncomplete completeFunnel updFunnel
  exact find?_condMap_of_kill _ _ (fun r _ => by simp) s.userFunnel

theorem countIncomplete_updFunnel (s : St) (u : ℕ) (g : FunnelRow → FunnelRow)
    (hg1 : ∀ r, (g r).chatId = r.chatId)
    (hg2 : ∀ r, (g r).isCompleted = r.isCompleted) :
    countIncomplete (updFunnel s u g) u = countIncomplete s u := by
  unfold countIncomplete updFunnel
  exact length_filter_condMap _ g (fun r => by rw [hg1, hg2]) s.userFunnel

theorem completeFunnel_closes (s : St) (u : ℕ) :
    ∀ r ∈ (completeFunnel s u).userFunnel, r.chatId = u → r.isCompleted = true := by
  intro r hr hc
  unfold completeFunnel updFunnel at hr
  rw [List.mem_map] at hr
  obtain ⟨a, _, ha⟩ := hr
  by_cases hpa : (a.chatId == u && !a.isCompleted) = true
  · rw [if_pos hpa] at ha
    rw [← ha]
  · rw [if_neg hpa] at ha
    subst ha
    simp only [Bool.and_eq_true, Bool.not_eq_true', beq_iff_eq, not_and] at hpa
    have := hpa hc
    cases h : a.isCompleted with
    | false => exact absurd h this
    | true => rfl

/-! ## Branch-computation lemmas for the api_key step of the text handler -/

theorem handleText_dup (s : St) (u : ℕ) (k : String) (now : ℕ) (f : FunnelRow)
    (row : ApiKeyRow)
    (hf : findIncomplete s u = some f) (hstep : f.currentStep = .api_key)
    (hk : keyShaped k = true)
    (hdup : s.apiKeys.find? (fun r => r.chatId == u && r.apiKey == k) = some row) :
    handleText s u k now = (completeFunnel s u, .duplicate row.createdAt) := by
  unfold handleText
  rw [hf]
  simp [hstep, hk, hdup]

theorem handleText_fresh (s : St) (u : ℕ) (k : String) (now : ℕ) (f : FunnelRow)
    (hf : findIncomplete s u = some f) (hstep : f.currentStep = .api_key)
    (hk : keyShaped k = true)
    (hnone : s.apiKeys.find? (fun r => r.chatId == u && r.apiKey == k) = none) :
    handleText s u k now =
      (completeFunnel (updateFunnelApiKey (bumpKeyCounter
          { s with apiKeys := s.apiKeys ++
              [{ chatId := u, apiKey := k, platform := f.source,
                 accountVertical := f.vertical, accountGeo := f.geo,
                 accountPrice := f.conversionPrice, createdAt := now }] } u) u k) u,
       .savedOk) := by
  unfold handleText
  rw [hf]
  simp [hstep, hk, hnone]

theorem handleText_fresh_apiKeys (s : St) (u : ℕ) (k : String) (now : ℕ)
    (f : FunnelRow)
    (hf : findIncomplete s u = some f) (hstep : f.currentStep = .api_key)
    (hk : keyShaped k = true)
    (hnone : s.apiKeys.find? (fun r => r.chatId == u && r.apiKey == k) = none) :
    (handleText s u k now).1.apiKeys = s.apiKeys ++
      [{ chatId := u, apiKey := k, platform := f.source,
         accountVertical := f.vertical, accountGeo := f.geo,
         accountPrice := f.conversionPrice, createdAt := now }] := by
  rw [handleText_fresh s u k now f hf hstep hk hnone]
  rfl

/-! ## Lemmas for getOrCreateUserFunnel and add_user_access -/

theorem getOrCreate_found (s : St) (u : ℕ) (f : FunnelRow)
    (h : findIncomplete s u = some f) : getOrCreateUserFunnel s u = (f, s) := by
  unfold getOrCreateUserFunnel
  rw [h]

theorem getOrCreate_missing (s : St) (u : ℕ) (h : findIncomplete s u = none) :
    getOrCreateUserFunnel s u =
      (newFunnel u, { s with userFunnel := s.userFunnel ++ [newFunnel u] }) := by
  unfold getOrCreateUserFunnel
  rw [h]

theorem countIncomplete_insert_new (s : St) (u : ℕ)
    (h : findIncomplete s u = none) :
    countIncomplete { s with userFunnel := s.userFunnel ++ [newFunnel u] } u = 1 := by
  unfold countIncomplete
  have hnil : s.userFunnel.filter (fun r => r.chatId == u && !r.isCompleted) = [] :=
    List.filter_eq_nil_iff.mpr (List.find?_eq_none.mp h)
  simp only [List.filter_append, hnil, List.nil_append]
  simp [newFunnel]

theorem countIncomplete_getOrCreate (s : St) (u : ℕ)
    (h : countIncomplete s u ≤ 1) :
    countIncomplete (getOrCreateUserFunnel s u).2 u ≤ 1 := by
  cases hfind : findIncomplete s u with
  | some f => rw [getOrCreate_found s u f hfind]; exact h
  | none =>
    rw [getOrCreate_missing s u hfind]
    exact le_of_eq (countIncomplete_insert_new s u hfind)

theorem add_user_access_userAccess (s : St) (u a d : ℕ) (n : Option String)
    (t : ℕ) :
    (add_user_access s u a d n t).userAccess =
      if s.userAccess.any (fun r => r.chatId == u) then
        s.userAccess.map (fun r => if r.chatId == u then grantRow r a d n t else r)
      else s.userAccess ++ [newAccessRow u a d n t] := by
  unfold add_user_access
  by_cases h : s.userAccess.any (fun r => r.chatId == u) = true
  · rw [if_pos h, if_pos h]
  · rw [if_neg h, if_neg h]

theorem add_user_access_expiry (s : St) (u a d : ℕ) (n : Option String) (t : ℕ) :
    ∀ r ∈ (add_user_access s u a d n t).userAccess, r.chatId = u →
      r.expiresAt = t + d * dayMs := by
  intro r hr hc
  rw [add_user_access_userAccess] at hr
  by_cases hany : s.userAccess.any (fun r => r.chatId == u) = true
  · rw [if_pos hany] at hr
    rw [List.mem_map] at hr
    obtain ⟨a0, _, ha0⟩ := hr
    by_cases hp : (a0.chatId == u) = true
    · rw [if_pos hp] at ha0
      rw [← ha0]
      rfl
    · rw [if_neg hp] at ha0
      subst ha0
      exact absurd (by simp [hc]) hp
  · rw [if_neg hany] at hr
    rw [List.mem_append] at hr
    cases hr with
    | inl hmem =>
      have hall := List.any_eq_false.mp (Bool.eq_false_iff.mpr hany)
      exact absurd (by simp [hc]) (hall r hmem)
    | inr hnew =>
      rw [List.mem_singleton] at hnew
      subst hnew
      rfl

theorem add_user_access_count (s : St) (u a d : ℕ) (n : Option String) (t : ℕ)
    (h : (s.userAccess.filter (fun r => r.chatId == u)).length ≤ 1) :
    ((add_user_access s u a d n t).userAccess.filter
      (fun r => r.chatId == u)).length = 1 := by
  rw [add_user_access_userAccess]
  by_cases hany : s.userAccess.any (fun r => r.chatId == u) = true
  · rw [if_pos hany]
    rw [length_filter_condMap (fun r => r.chatId == u)
      (fun r => grantRow r a d n t) (fun r => rfl) s.userAccess]
    obtain ⟨x, hx, hpx⟩ := List.any_eq_true.mp hany
    have hmem : x ∈ s.userAccess.filter (fun r => r.chatId == u) :=
      List.mem_filter.mpr ⟨hx, hpx⟩
    have hpos : 0 < (s.userAccess.filter (fun r => r.chatId == u)).length :=
      List.length_pos.mpr (List.ne_nil_of_mem hmem)
    omega
  · rw [if_neg hany]
    have hall := List.any_eq_false.mp (Bool.eq_false_iff.mpr hany)
    have hnil : s.userAccess.filter (fun r => r.chatId == u) = [] :=
      List.filter_eq_nil_iff.mpr hall
    rw [List.filter_append, hnil, List.nil_append]
    simp [newAccessRow]

/-! ## Claim theorems -/

/-- C3: for every user and every sequence of `beginFunnel`
(`getOrCreateUserFunnel`) calls without an intervening completion, at most
one incomplete FunnelState exists for that user at any time; an existing
incomplete funnel is returned unchanged (idempotent resume), otherwise
exactly one new funnel is created at the initial step `vertical`. -/
theorem single_incomplete_funnel (s : St) (u : ℕ) (h : countIncomplete s u ≤ 1) :
    (∀ n, countIncomplete (beginIter s u n) u ≤ 1)
    ∧ (∀ f, findIncomplete s u = some f → getOrCreateUserFunnel s u = (f, s))
    ∧ (findIncomplete s u = none →
        (getOrCreateUserFunnel s u).2.userFunnel = s.userFunnel ++ [newFunnel u]
        ∧ (getOrCreateUserFunnel s u).1 = newFunnel u
        ∧ (newFunnel u).currentStep = .vertical
        ∧ countIncomplete (getOrCreateUserFunnel s u).2 u = 1) := by
  refine ⟨?_, ?_, ?_⟩
  · have iter : ∀ n, ∀ s' : St, countIncomplete s' u ≤ 1 →
        countIncomplete (beginIter s' u n) u ≤ 1 := by
      intro n
      induction n with
      | zero => intro s' h'; exact h'
      | succ n ih =>
        intro s' h'
        exact ih _ (countIncomplete_getOrCreate s' u h')
    exact fun n => iter n s h
  · exact fun f hf => getOrCreate_found s u f hf
  · intro hnone
    rw [getOrCreate_missing s u hnone]
    exact ⟨rfl, rfl, rfl, countIncomplete_insert_new s u hnone⟩

/-- C3 witness: from the empty state, three consecutive beginFunnel calls
by user 1 leave at most one incomplete funnel. -/
theorem single_incomplete_funnel_witness :
    countIncomplete exStEmpty 1 ≤ 1
    ∧ countIncomplete (beginIter exStEmpty 1 3) 1 ≤ 1 :=
  ⟨by decide, (single_incomplete_funnel exStEmpty 1 (by decide)).1 3⟩

/-- C6 counterexample: when the access store is unreachable (the catch
branch of `checkUserAccess`), the returned record is byte-for-byte the same
`{hasAccess:false, daysLeft:0, expiresAt:null, isActive:false}` produced for
a user with no subscription row — the claimed distinct error reason does not
exist (only `hasAccess = false`, fail-closed, holds). -/
theorem access_error_indistinct_counterexample :
    (checkUserAccess [] 1 none 0).hasAccess = false
    ∧ checkUserAccess [] 1 none 0 = checkUserAccess [] 1 (some []) 0 := by
  exact ⟨by decide, by decide⟩

/-- C6 amended: for every non-admin user, a failed access-store lookup
yields `hasAccess = false` (fail closed), but the result is identical to the
no-subscription denial result; the caller cannot distinguish a transient
infrastructure failure from a denial. -/
theorem access_fail_closed_amended (adminIds : List ℕ) (u now : ℕ)
    (h : u ∉ adminIds) :
    (checkUserAccess adminIds u none now).hasAccess = false
    ∧ checkUserAccess adminIds u none now
        = checkUserAccess adminIds u (some []) now := by
  unfold checkUserAccess
  rw [if_neg h, if_neg h]
  exact ⟨rfl, rfl⟩

/-- C6 amended witness at user 1 with no administrators. -/
theorem access_fail_closed_amended_witness :
    (1 : ℕ) ∉ ([] : List ℕ)
    ∧ (checkUserAccess [] 1 none 0).hasAccess = false :=
  ⟨by decide, (access_fail_closed_amended [] 1 0 (by decide)).1⟩

/-- C7: granting 30 days twice in succession sets `expires_at` to
`now + 30 days` both times (the second call does not stack to `now + 60`),
and the second call updates the existing grant row, leaving exactly one
`user_access` row for the user. -/
theorem grant_idempotent (s : St) (u a1 a2 : ℕ) (n1 n2 : Option String)
    (t1 t2 : ℕ)
    (h : (s.userAccess.filter (fun r => r.chatId == u)).length ≤ 1) :
    (∀ r ∈ (add_user_access s u a1 30 n1 t1).userAccess,
        r.chatId = u → r.expiresAt = t1 + 30 * dayMs)
    ∧ (∀ r ∈ (add_user_access (add_user_access s u a1 30 n1 t1) u a2 30 n2 t2).userAccess,
        r.chatId = u → r.expiresAt = t2 + 30 * dayMs)
    ∧ ((add_user_access (add_user_access s u a1 30 n1 t1) u a2 30 n2 t2).userAccess.filter
        (fun r => r.chatId == u)).length = 1 := by
  refine ⟨add_user_access_expiry s u a1 30 n1 t1,
    add_user_access_expiry _ u a2 30 n2 t2, ?_⟩
  exact add_user_access_count _ u a2 30 n2 t2
    (le_of_eq (add_user_access_count s u a1 30 n1 t1 h))

/-- C7 witness: two grants to user 2 at times 100 and 200 from the empty
state leave exactly one access row. -/
theorem grant_idempotent_witness :
    (exStEmpty.userAccess.filter (fun r => r.chatId == 2)).length ≤ 1
    ∧ ((add_user_access (add_user_access exStEmpty 2 9 30 none 100) 2 9 30 none 200).userAccess.filter
        (fun r => r.chatId == 2)).length = 1 :=
  ⟨by decide, (grant_idempotent exStEmpty 2 9 9 none none 100 200 (by decide)).2.2⟩

/-- C1: submitting the identical key text twice for the same user yields
`savedOk` on the first submission (row created at `t1`) and
`duplicate t1` on the second, and the key store holds exactly one row for
the (user, key) pair after each submission.  The second submission is made
from any later state whose key store is unchanged and whose user is again
at the api_key step of an incomplete funnel. -/
theorem funnel_key_idempotent (s s2 : St) (u : ℕ) (k : String)
    (f f2 : FunnelRow) (t1 t2 : ℕ)
    (hf : findIncomplete s u = some f) (hstep : f.currentStep = .api_key)
    (hk : keyShaped k = true)
    (hnew : countKeyRows s u k = 0)
    (hkeys : s2.apiKeys = (handleText s u k t1).1.apiKeys)
    (hf2 : findIncomplete s2 u = some f2) (hstep2 : f2.currentStep = .api_key) :
    (handleText s u k t1).2 = .savedOk
    ∧ countKeyRows (handleText s u k t1).1 u k = 1
    ∧ (handleText s2 u k t2).2 = .duplicate t1
    ∧ countKeyRows (handleText s2 u k t2).1 u k = 1 := by
  have hnil : s.apiKeys.filter (fun r => r.chatId == u && r.apiKey == k) = [] :=
    List.length_eq_zero.mp hnew
  have hnone : s.apiKeys.find? (fun r => r.chatId == u && r.apiKey == k) = none :=
    filter_nil_find? _ _ hnil
  have hins : (handleText s u k t1).1.apiKeys = s.apiKeys ++
      [{ chatId := u, apiKey := k, platform := f.source,
         accountVertical := f.vertical, accountGeo := f.geo,
         accountPrice := f.conversionPrice, createdAt := t1 }] :=
    handleText_fresh_apiKeys s u k t1 f hf hstep hk hnone
  have hcount1 : countKeyRows (handleText s u k t1).1 u k = 1 := by
    unfold countKeyRows
    rw [hins, List.filter_append, hnil, List.nil_append]
    simp
  have hfind2 : s2.apiKeys.find? (fun r => r.chatId == u && r.apiKey == k) =
      some { chatId := u, apiKey := k, platform := f.source,
             accountVertical := f.vertical, accountGeo := f.geo,
             accountPrice := f.conversionPrice, createdAt := t1 } := by
    rw [hkeys, hins, List.find?_append, hnone]
    simp
  have hdup := handleText_dup s2 u k t2 f2 _ hf2 hstep2 hk hfind2
  refine ⟨?_, hcount1, ?_, ?_⟩
  · rw [handleText_fresh s u k t1 f hf hstep hk hnone]
  · rw [hdup]
  · rw [hdup]
    show (List.filter (fun r => r.chatId == u && r.apiKey == k)
      (completeFunnel s2 u).apiKeys).length = 1
    rw [show (completeFunnel s2 u).apiKeys = s2.apiKeys from rfl,
      hkeys, hins, List.filter_append, hnil, List.nil_append]
    simp

/-- C1 witness: user 1 submits the spec's example key twice (at times 5
and 9, with a re-opened funnel in between). -/
theorem funnel_key_idempotent_witness :
    (handleText exStApiKey 1 exKey 5).2 = .savedOk
    ∧ countKeyRows (handleText exStApiKey 1 exKey 5).1 1 exKey = 1
    ∧ (handleText exSt2 1 exKey 9).2 = .duplicate 5
    ∧ countKeyRows (handleText exSt2 1 exKey 9).1 1 exKey = 1 :=
  funnel_key_idempotent exStApiKey exSt2 1 exKey exFunnelApiKey exFunnelApiKey 5 9
    (by decide) (by decide) (by decide) (by decide) (by decide) (by decide) (by decide)

/-- C2: at the api_key step with a key-shaped text, the handler completes
the funnel (no incomplete funnel row of the user remains) in both terminal
outcomes, fresh save and duplicate. -/
theorem funnel_completion_both_outcomes (s : St) (u : ℕ) (k : String) (now : ℕ)
    (f : FunnelRow)
    (hf : findIncomplete s u = some f) (hstep : f.currentStep = .api_key)
    (hk : keyShaped k = true) :
    (∀ r ∈ (handleText s u k now).1.userFunnel, r.chatId = u → r.isCompleted = true)
    ∧ ((handleText s u k now).2 = .savedOk
        ∨ ∃ t, (handleText s u k now).2 = .duplicate t) := by
  cases hfind : s.apiKeys.find? (fun r => r.chatId == u && r.apiKey == k) with
  | some row =>
    rw [handleText_dup s u k now f row hf hstep hk hfind]
    exact ⟨completeFunnel_closes s u, Or.inr ⟨row.createdAt, rfl⟩⟩
  | none =>
    rw [handleText_fresh s u k now f hf hstep hk hfind]
    exact ⟨completeFunnel_closes _ u, Or.inl rfl⟩

/-- C2 witness: after user 1 submits the example key, their funnel row is
completed. -/
theorem funnel_completion_witness :
    keyShaped exKey = true
    ∧ ({ exFunnelApiKey with apiKey := some exKey, isCompleted := true } : FunnelRow).isCompleted = true :=
  ⟨by decide,
    (funnel_completion_both_outcomes exStApiKey 1 exKey 5 exFunnelApiKey
      (by decide) (by decide) (by decide)).1 _ (by decide) (by decide)⟩

/-- C10: when the submitted key is detected as a duplicate, the only state
change is marking the user's incomplete funnel rows completed: the key
store, the user cache (total_keys_sent) and the access table are untouched,
and every funnel field — in particular api_key — keeps its value. -/
theorem duplicate_frame (s : St) (u : ℕ) (k : String) (now : ℕ)
    (f : FunnelRow) (row : ApiKeyRow)
    (hf : findIncomplete s u = some f) (hstep : f.currentStep = .api_key)
    (hk : keyShaped k = true)
    (hdup : s.apiKeys.find? (fun r => r.chatId == u && r.apiKey == k) = some row) :
    handleText s u k now = (completeFunnel s u, .duplicate row.createdAt)
    ∧ (handleText s u k now).1.apiKeys = s.apiKeys
    ∧ (handleText s u k now).1.userCache = s.userCache
    ∧ (handleText s u k now).1.userAccess = s.userAccess
    ∧ (handleText s u k now).1.userFunnel
        = s.userFunnel.map (fun r =>
            if r.chatId == u && !r.isCompleted then { r with isCompleted := true } else r)
    ∧ (handleText s u k now).1.userFunnel.map (fun r => r.apiKey)
        = s.userFunnel.map (fun r => r.apiKey) := by
  have hdup' := handleText_dup s u k now f row hf hstep hk hdup
  rw [hdup']
  refine ⟨rfl, rfl, rfl, rfl, rfl, ?_⟩
  show (completeFunnel s u).userFunnel.map (fun r => r.apiKey) = _
  unfold completeFunnel updFunnel
  rw [List.map_map]
  apply List.map_congr_left
  intro a _
  by_cases hpa : (a.chatId == u && !a.isCompleted) = true
  · simp [Function.comp, hpa]
  · simp [Function.comp, hpa]

/-- C10 witness: user 1 re-submits the example key already stored at time
5; the key store is unchanged. -/
theorem duplicate_frame_witness :
    handleText exStDup 1 exKey 9 = (completeFunnel exStDup 1, .duplicate 5)
    ∧ (handleText exStDup 1 exKey 9).1.apiKeys = exStDup.apiKeys := by
  have h := duplicate_frame exStDup 1 exKey 9 exFunnelApiKey exRow
    (by decide) (by decide) (by decide) (by decide)
  exact ⟨h.1, h.2.1⟩

/-- C9 counterexample: at the Price step the input `"Infinity"` is accepted
(`parseFloat` returns positive infinity, which is neither NaN nor `<= 0`,
so the handler advances the funnel to the api_key step), yet `"Infinity"`
does not parse to a finite number — refuting "accepted if and only if the
input text parses to a finite number strictly greater than 0". -/
theorem price_infinity_counterexample :
    (handleText exStPrice 1 "Infinity" 0).2 = .askKey
    ∧ (findIncomplete (handleText exStPrice 1 "Infinity" 0).1 1).map
        (fun r => r.currentStep) = some .api_key
    ∧ jsIsFinite (parseFloat "Infinity") = false := by
  exact ⟨by decide, by decide, by decide⟩

/-- C9 amended: at the Price step the input is accepted iff
`parseFloat(text)` is neither NaN nor `<= 0` under JS comparison (prefix
parsing, so non-finite positives such as `"Infinity"` are also accepted);
on acceptance `current_step` advances to `api_key`, and `conversion_price`
is set to the parsed value rounded to the DECIMAL(10,2) column when the
value fits it, but is left unchanged when PostgreSQL rejects the value
(Infinity, or numeric overflow: the failed UPDATE is caught and swallowed
while the step still advances); on any rejected input the handler replies
with the invalid-price re-prompt and the state — step and all fields — is
unchanged. -/
theorem price_validation_amended (s : St) (u : ℕ) (f : FunnelRow)
    (text : String) (now : ℕ)
    (hf : findIncomplete s u = some f) (hstep : f.currentStep = .price) :
    ((jsIsNaN (parseFloat text) || jsLeZero (parseFloat text)) = true →
        handleText s u text now = (s, .invalidPrice))
    ∧ ((jsIsNaN (parseFloat text) || jsLeZero (parseFloat text)) = false →
        (handleText s u text now).2 = .askKey
        ∧ (∀ q, decimal10_2 (parseFloat text) = some q →
            findIncomplete (handleText s u text now).1 u
              = some { f with
                  conversionPrice := some q
                  currentStep := .api_key })
        ∧ (decimal10_2 (parseFloat text) = none →
            findIncomplete (handleText s u text now).1 u
              = some { f with currentStep := .api_key })) := by
  constructor
  · intro hrej
    unfold handleText
    rw [hf]
    simp [hstep, hrej]
  · intro hacc
    have hres : handleText s u text now
        = (updateFunnelStep (updateFunnelPrice s u (parseFloat text)) u .api_key,
           .askKey) := by
      unfold handleText
      rw [hf]
      simp [hstep, hacc]
    rw [hres]
    refine ⟨rfl, ?_, ?_⟩
    · intro q hq
      show findIncomplete
        (updateFunnelStep (updateFunnelPrice s u (parseFloat text)) u .api_key) u = _
      rw [findIncomplete_updateFunnelStep,
        findIncomplete_updateFunnelPrice_ok s u (parseFloat text) q hq, hf]
      rfl
    · intro hq
      show findIncomplete
        (updateFunnelStep (updateFunnelPrice s u (parseFloat text)) u .api_key) u = _
      rw [updateFunnelPrice_err s u (parseFloat text) hq,
        findIncomplete_updateFunnelStep, hf]
      rfl

/-- C9 amended witness: `"free"` is rejected with the state unchanged;
`"75.5"` is accepted, the step advances and the price column gets 75.50;
`"Infinity"` is accepted with the step advancing while the price column
stays unset. -/
theorem price_validation_amended_witness :
    handleText exStPrice 1 "free" 0 = (exStPrice, .invalidPrice)
    ∧ (handleText exStPrice 1 "75.5" 0).2 = .askKey
    ∧ findIncomplete (handleText exStPrice 1 "75.5" 0).1 1
        = some { exFunnelPrice with
            conversionPrice := some ((151 : ℚ) / 2)
            currentStep := .api_key }
    ∧ findIncomplete (handleText exStPrice 1 "Infinity" 0).1 1
        = some { exFunnelPrice with currentStep := .api_key } := by
  have h1 := (price_validation_amended exStPrice 1 exFunnelPrice "free" 0
    (by decide) (by decide)).1 (by decide)
  have hp : parseFloat "75.5" = .fin ((151 : ℚ) / 2) := by
    simp +decide [parseFloat, skipWs, jsWhitespace, readSign, takeDigits,
      natOfDigits, parseExp, pow10]
    norm_num
  have hacc : (jsIsNaN (parseFloat "75.5") || jsLeZero (parseFloat "75.5")) = false := by
    rw [hp]
    norm_num [jsIsNaN, jsLeZero]
  have hfloor : roundHalfAwayFromZero (((151 : ℚ) / 2) * 100) = 7550 := by
    unfold roundHalfAwayFromZero
    norm_num
  have hdec : decimal10_2 (parseFloat "75.5") = some ((151 : ℚ) / 2) := by
    rw [hp]
    show (if |((roundHalfAwayFromZero (((151 : ℚ) / 2) * 100) : ℚ) / 100)| < 10 ^ 8
          then some ((roundHalfAwayFromZero (((151 : ℚ) / 2) * 100) : ℚ) / 100)
          else none) = some ((151 : ℚ) / 2)
    rw [hfloor, if_pos (by rw [abs_of_nonneg (by norm_num)]; norm_num)]
    norm_num
  have h2 := (price_validation_amended exStPrice 1 exFunnelPrice "75.5" 0
    (by decide) (by decide)).2 hacc
  have h3 := (price_validation_amended exStPrice 1 exFunnelPrice "Infinity" 0
    (by decide) (by decide)).2 (by decide)
  exact ⟨h1, h2.1, h2.2.1 _ hdec, h3.2.2 (by decide)⟩

/-- C8 counterexample: with user 1's incomplete funnel at the first step
(`vertical`, the spec's Category), the back button leaves the database
state unchanged — the incomplete FunnelState still exists afterwards,
refuting "invoking goBack deletes that incomplete FunnelState". -/
theorem goback_vertical_no_delete :
    handleBack exStVertical 1 = exStVertical
    ∧ findIncomplete exStVertical 1 = some exFunnelVertical
    ∧ findIncomplete (handleBack exStVertical 1) 1 ≠ none := by
  exact ⟨by decide, by decide, by decide⟩

/-- C8 amended: goBack from `source`, `price` or `api_key` moves
`current_step` exactly one step earlier without clearing any captured
field; from `vertical` or `geo` the handler falls through to the main menu
and leaves the state — in particular the incomplete FunnelState — fully
unchanged (nothing is deleted). -/
theorem goback_amended (s : St) (u : ℕ) (f : FunnelRow)
    (hf : findIncomplete s u = some f) :
    (f.currentStep = .source →
        findIncomplete (handleBack s u) u = some { f with currentStep := .geo })
    ∧ (f.currentStep = .price →
        findIncomplete (handleBack s u) u = some { f with currentStep := .source })
    ∧ (f.currentStep = .api_key →
        findIncomplete (handleBack s u) u = some { f with currentStep := .price })
    ∧ (f.currentStep = .vertical ∨ f.currentStep = .geo → handleBack s u = s) := by
  refine ⟨?_, ?_, ?_, ?_⟩
  · intro hstep
    have hres : handleBack s u = updateFunnelStep s u .geo := by
      unfold handleBack
      rw [hf]
      simp [hstep]
    rw [hres, findIncomplete_updateFunnelStep, hf]
    rfl
  · intro hstep
    have hres : handleBack s u = updateFunnelStep s u .source := by
      unfold handleBack
      rw [hf]
      simp [hstep]
    rw [hres, findIncomplete_updateFunnelStep, hf]
    rfl
  · intro hstep
    have hres : handleBack s u = updateFunnelStep s u .price := by
      unfold handleBack
      rw [hf]
      simp [hstep]
    rw [hres, findIncomplete_updateFunnelStep, hf]
    rfl
  · intro hstep
    unfold handleBack
    rw [hf]
    cases hstep with
    | inl h => simp [h]
    | inr h => simp [h]

/-- C8 amended witness: from the source step, goBack moves user 1's funnel
to the geo step, keeping the captured vertical and geo fields. -/
theorem goback_amended_witness :
    findIncomplete (handleBack exStSource 1) 1
      = some { exFunnelSource with currentStep := .geo } :=
  (goback_amended exStSource 1 exFunnelSource (by decide)).1 (by decide)

/-- C4 counterexample: with user 1's incomplete funnel at the price step, a
vertical-selection callback (reachable by re-pressing the choose-vertical
menu entry, or from a stale inline keyboard — the callback handlers check
neither access nor the current step) moves `current_step` from `price` back
to `geo`: a move of two steps, refuting "no input can move the funnel by
more than one step in either direction". -/
theorem step_jump_counterexample :
    (findIncomplete exStPrice 1).map (fun r => r.currentStep) = some .price
    ∧ (findIncomplete (handleEvent exStPrice 1 (.verticalSelect "Other")) 1).map
        (fun r => r.currentStep) = some .geo
    ∧ ¬(Step.geo = Step.price
        ∨ stepIdx Step.geo = stepIdx Step.price + 1
        ∨ stepIdx Step.price = stepIdx Step.geo + 1) := by
  exact ⟨by decide, by decide, by decide⟩

/-- C4 amended: for an incomplete funnel, text input and platform selection
advance `current_step` by at most one step forward (in the fixed order),
goBack moves it by at most one step back, and beginFunnel leaves the funnel
unchanged; the vertical-selection callback however sets `current_step` to
`geo` regardless of the current step, which can move the funnel more than
one step backward. -/
theorem step_transition_amended (s : St) (u : ℕ) (e : Event) (f f' : FunnelRow)
    (hf : findIncomplete s u = some f)
    (hf' : findIncomplete (handleEvent s u e) u = some f') :
    (∀ t now, e = .textInput t now →
        f'.currentStep = f.currentStep
        ∨ stepIdx f'.currentStep = stepIdx f.currentStep + 1)
    ∧ (e = .goBack →
        f'.currentStep = f.currentStep
        ∨ stepIdx f.currentStep = stepIdx f'.currentStep + 1)
    ∧ (∀ p, e = .sourceSelect p →
        f'.currentStep = f.currentStep
        ∨ stepIdx f'.currentStep = stepIdx f.currentStep + 1)
    ∧ (e = .beginFunnel → f' = f)
    ∧ (∀ v, e = .verticalSelect v → f'.currentStep = .geo) := by
  refine ⟨?_, ?_, ?_, ?_, ?_⟩
  · intro t now he
    subst he
    cases hcs : f.currentStep with
    | vertical =>
      have hres : (handleText s u t now).1 = s := by
        unfold handleText
        rw [hf]
        simp [hcs]
      rw [show handleEvent s u (.textInput t now) = (handleText s u t now).1 from rfl,
        hres, hf] at hf'
      left
      rw [Option.some.injEq] at hf'
      rw [← hf']
      exact hcs
    | geo =>
      have hres : (handleText s u t now).1
          = updateFunnelStep (updateFunnelGeo s u t) u .source := by
        unfold handleText
        rw [hf]
        simp [hcs]
      rw [show handleEvent s u (.textInput t now) = (handleText s u t now).1 from rfl,
        hres, findIncomplete_updateFunnelStep, findIncomplete_updateFunnelGeo, hf,
        Option.map_some', Option.map_some', Option.some.injEq] at hf'
      right
      rw [← hf']
      rfl
    | source =>
      have hres : (handleText s u t now).1 = s := by
        unfold handleText
        rw [hf]
        simp [hcs]
      rw [show handleEvent s u (.textInput t now) = (handleText s u t now).1 from rfl,
        hres, hf, Option.some.injEq] at hf'
      left
      rw [← hf']
      exact hcs
    | price =>
      cases hcond : (jsIsNaN (parseFloat t) || jsLeZero (parseFloat t)) with
      | true =>
        have hres : (handleText s u t now).1 = s := by
          unfold handleText
          rw [hf]
          simp [hcs, hcond]
        rw [show handleEvent s u (.textInput t now) = (handleText s u t now).1 from rfl,
          hres, hf, Option.some.injEq] at hf'
        left
        rw [← hf']
        exact hcs
      | false =>
        have hres : (handleText s u t now).1
            = updateFunnelStep (updateFunnelPrice s u (parseFloat t)) u .api_key := by
          unfold handleText
          rw [hf]
          simp [hcs, hcond]
        cases hdec : decimal10_2 (parseFloat t) with
        | some q =>
          rw [show handleEvent s u (.textInput t now) = (handleText s u t now).1 from rfl,
            hres, findIncomplete_updateFunnelStep,
            findIncomplete_updateFunnelPrice_ok s u (parseFloat t) q hdec, hf,
            Option.map_some', Option.map_some', Option.some.injEq] at hf'
          right
          rw [← hf']
          rfl
        | none =>
          rw [show handleEvent s u (.textInput t now) = (handleText s u t now).1 from rfl,
            hres, updateFunnelPrice_err s u (parseFloat t) hdec,
            findIncomplete_updateFunnelStep, hf,
            Option.map_some', Option.some.injEq] at hf'
          right
          rw [← hf']
          rfl
    | api_key =>
      cases hk : keyShaped t with
      | false =>
        have hres : (handleText s u t now).1 = s := by
          unfold handleText
          rw [hf]
          simp [hcs, hk]
        rw [show handleEvent s u (.textInput t now) = (handleText s u t now).1 from rfl,
          hres, hf, Option.some.injEq] at hf'
        left
        rw [← hf']
        exact hcs
      | true =>
        cases hfind : s.apiKeys.find? (fun r => r.chatId == u && r.apiKey == t) with
        | some row =>
          rw [show handleEvent s u (.textInput t now) = (handleText s u t now).1 from rfl,
            handleText_dup s u t now f row hf hcs hk hfind] at hf'
          rw [show (completeFunnel s u, Reply.duplicate row.createdAt).1
            = completeFunnel s u from rfl, findIncomplete_completeFunnel] at hf'
          exact absurd hf' (by simp)
        | none =>
          rw [show handleEvent s u (.textInput t now) = (handleText s u t now).1 from rfl,
            handleText_fresh s u t now f hf hcs hk hfind] at hf'
          rw [show ∀ x : St, ∀ y : Reply, (x, y).1 = x from fun _ _ => rfl,
            findIncomplete_completeFunnel] at hf'
          exact absurd hf' (by simp)
  · intro he
    subst he
    cases hcs : f.currentStep with
    | vertical =>
      have hres : handleBack s u = s := by
        unfold handleBack
        rw [hf]
        simp [hcs]
      rw [show handleEvent s u .goBack = handleBack s u from rfl,
        hres, hf, Option.some.injEq] at hf'
      left
      rw [← hf']
      exact hcs
    | geo =>
      have hres : handleBack s u = s := by
        unfold handleBack
        rw [hf]
        simp [hcs]
      rw [show handleEvent s u .goBack = handleBack s u from rfl,
        hres, hf, Option.some.injEq] at hf'
      left
      rw [← hf']
      exact hcs
    | source =>
      have hres : handleBack s u = updateFunnelStep s u .geo := by
        unfold handleBack
        rw [hf]
        simp [hcs]
      rw [show handleEvent s u .goBack = handleBack s u from rfl,
        hres, findIncomplete_updateFunnelStep, hf,
        Option.map_some', Option.some.injEq] at hf'
      right
      rw [← hf']
      rfl
    | price =>
      have hres : handleBack s u = updateFunnelStep s u .source := by
        unfold handleBack
        rw [hf]
        simp [hcs]
      rw [show handleEvent s u .goBack = handleBack s u from rfl,
        hres, findIncomplete_updateFunnelStep, hf,
        Option.map_some', Option.some.injEq] at hf'
      right
      rw [← hf']
      rfl
    | api_key =>
      have hres : handleBack s u = updateFunnelStep s u .price := by
        unfold handleBack
        rw [hf]
        simp [hcs]
      rw [show handleEvent s u .goBack = handleBack s u from rfl,
        hres, findIncomplete_updateFunnelStep, hf,
        Option.map_some', Option.some.injEq] at hf'
      right
      rw [← hf']
      rfl
  · intro p he
    subst he
    by_cases hcs : f.currentStep = .source
    · have hres : handleSourceSelection s u p
          = updateFunnelStep (updateFunnelSource s u p) u .price := by
        unfold handleSourceSelection
        rw [hf]
        simp [hcs]
      rw [show handleEvent s u (.sourceSelect p) = handleSourceSelection s u p from rfl,
        hres, findIncomplete_updateFunnelStep, findIncomplete_updateFunnelSource, hf,
        Option.map_some', Option.map_some', Option.some.injEq] at hf'
      right
      rw [← hf', hcs]
      rfl
    · have hres : handleSourceSelection s u p = s := by
        unfold handleSourceSelection
        rw [hf]
        simp [hcs]
      rw [show handleEvent s u (.sourceSelect p) = handleSourceSelection s u p from rfl,
        hres, hf, Option.some.injEq] at hf'
      left
      rw [← hf']
  · intro he
    subst he
    rw [show handleEvent s u .beginFunnel = (getOrCreateUserFunnel s u).2 from rfl,
      getOrCreate_found s u f hf] at hf'
    rw [hf, Option.some.injEq] at hf'
    exact hf'.symm
  · intro v he
    subst he
    rw [show handleEvent s u (.verticalSelect v) = handleVerticalSelection s u v from rfl] at hf'
    unfold handleVerticalSelection at hf'
    rw [findIncomplete_updateFunnelStep, findIncomplete_updateFunnelVertical, hf,
      Option.map_some', Option.map_some', Option.some.injEq] at hf'
    rw [← hf']

/-- C4 amended witness: goBack at the source step moves user 1's funnel
exactly one step back (to geo). -/
theorem step_transition_amended_witness :
    ({ exFunnelSource with currentStep := .geo } : FunnelRow).currentStep
        = exFunnelSource.currentStep
    ∨ stepIdx exFunnelSource.currentStep
        = stepIdx ({ exFunnelSource with currentStep := .geo } : FunnelRow).currentStep + 1 :=
  (step_transition_amended exStSource 1 .goBack exFunnelSource
    { exFunnelSource with currentStep := .geo } (by decide) (by decide)).2.1 rfl

/-- C5 counterexample: the duplicate check is an application-level
SELECT-then-INSERT.  Two interleaved submissions of the same key by the
same user both run the SELECT phase against the same state (both see no
duplicate), and both INSERTs are accepted by the storage layer — the
schema declares no unique constraint over (chat_id, api_key), only the
SERIAL primary key — leaving two rows for the pair. -/
theorem keystore_race_counterexample :
    keyCheckPhase exStEmpty 1 exKey = false
    ∧ countKeyRows (keyInsertPhase (keyInsertPhase exStEmpty 1 exKey
        (some "Google") 5) 1 exKey (some "Google") 6) 1 exKey = 2
    ∧ ¬(["chat_id", "api_key"] ∈ apiKeysUniqueColumnSets) := by
  exact ⟨by decide, by decide, by decide⟩

/-- C5 amended: (user, keyText) uniqueness is enforced only by the
application-level SELECT-then-INSERT; the api_keys table has no unique
constraint on (chat_id, api_key), so whenever the SELECT phase sees no
duplicate, two interleaved INSERT phases both succeed and add two rows. -/
theorem keystore_app_level_dedup (s : St) (u : ℕ) (k : String)
    (pf : Option String) (t1 t2 : ℕ)
    (h : keyCheckPhase s u k = false) :
    countKeyRows (keyInsertPhase (keyInsertPhase s u k pf t1) u k pf t2) u k
      = countKeyRows s u k + 2
    ∧ ¬(["chat_id", "api_key"] ∈ apiKeysUniqueColumnSets) := by
  refine ⟨?_, by decide⟩
  unfold countKeyRows keyInsertPhase
  simp [List.filter_append]

/-- C5 amended witness: from the empty store the interleaving leaves two
rows for (1, exKey). -/
theorem keystore_app_level_dedup_witness :
    keyCheckPhase exStEmpty 1 exKey = false
    ∧ countKeyRows (keyInsertPhase (keyInsertPhase exStEmpty 1 exKey
        (some "Google") 5) 1 exKey (some "Google") 6) 1 exKey
      = countKeyRows exStEmpty 1 exKey + 2 :=
  ⟨by decide,
   (keystore_app_level_dedup exStEmpty 1 exKey (some "Google") 5 6 (by decide)).1⟩

end Bot
